import Mathlib

/-!
Verification development for the distance-approach trajectory-optimization
formulator (`DistanceApproachIPOPTInterface`).  The repository ships only the
interface header (declarations); the evaluation bodies are therefore modelled
from the specification, faithfully to its words, generic over the numeric
representation exactly as the source's ADOL-C templates are.  Rational numbers
stand in for machine doubles; trigonometric primitives are passed as an
explicit operation bundle so that every definition stays executable.
-/

namespace DistanceApproach

/-- Bundle of trigonometric primitives over a numeric type `T`.  The source
formulation only ever calls `sin`, `cos` and `tan` on the abstract numeric
type, so the embedding threads them through as data. -/
structure TrigOps (T : Type) where
  sin : T → T
  cos : T → T
  tan : T → T

/-- A dense rational matrix with explicit shape, standing in for
`Eigen::MatrixXd`: entries outside the declared shape are irrelevant. -/
structure MatQ where
  rows : ℕ
  cols : ℕ
  entry : ℕ → ℕ → ℚ

/-- Modelled from the spec: the construction-time data of the formulator
(`DistanceApproachIPOPTInterface` private fields): horizon, sampling interval,
vehicle geometry, per-term objective weights, box limits, obstacle data and
configuration flags.  The `.cc` evaluation bodies are absent from the sources,
so this is the data model described in spec sections 3 and 6. -/
structure DAConfig where
  horizon_ : ℕ
  ts_ : ℚ
  wheelbase_ : ℚ
  offset_ : ℚ
  w_ev_ : ℚ
  l_ev_ : ℚ
  weight_state_x_ : ℚ
  weight_state_y_ : ℚ
  weight_state_phi_ : ℚ
  weight_state_v_ : ℚ
  weight_input_steer_ : ℚ
  weight_input_a_ : ℚ
  weight_rate_steer_ : ℚ
  weight_rate_a_ : ℚ
  weight_stitching_steer_ : ℚ
  weight_stitching_a_ : ℚ
  weight_first_order_time_ : ℚ
  weight_second_order_time_ : ℚ
  XYbounds_ : ℚ × ℚ × ℚ × ℚ
  max_steer_angle_ : ℚ
  max_speed_forward_ : ℚ
  max_speed_reverse_ : ℚ
  max_acceleration_forward_ : ℚ
  max_acceleration_reverse_ : ℚ
  min_time_sample_scaling_ : ℚ
  max_time_sample_scaling_ : ℚ
  min_safety_distance_ : ℚ
  max_safety_distance_ : ℚ
  use_safety_cap_ : Bool
  max_lambda_ : ℚ
  max_miu_ : ℚ
  obstacles_num_ : ℕ
  obstacles_edges_num_ : List ℕ
  obstacles_A_ : ℕ → ℕ → ℚ
  obstacles_b_ : ℕ → ℚ
  use_fix_time_ : Bool

/-- Boundary data consumed by the objective: the target end state `xf` and the
control carried over from the previous planning cycle (`last_time_u`). -/
structure BoundaryData where
  xf_ : ℕ → ℚ
  last_time_u_ : ℕ → ℚ

/-- Total number of obstacle edges, summed over obstacles. -/
def obstacles_edges_sum_ (cfg : DAConfig) : ℕ :=
  cfg.obstacles_edges_num_.sum

/-- Number of edges of obstacle `o`. -/
def edges_num (cfg : DAConfig) (o : ℕ) : ℕ :=
  cfg.obstacles_edges_num_.getD o 0

/-- Number of edges of the obstacles preceding obstacle `o` (global edge
index base of obstacle `o`). -/
def edges_before (cfg : DAConfig) (o : ℕ) : ℕ :=
  (cfg.obstacles_edges_num_.take o).sum

/-! ### Decision-vector layout (spec section 3 and 4.1)

The flat decision vector is partitioned into five contiguous blocks: states
(`horizon+1` samples of 4), controls (`horizon` samples of 2), time-scaling
(`horizon` scalars), dual block lambda (one scalar per obstacle edge per time
sample) and dual block mu (one 2-vector per obstacle per time sample). -/

/-- Size of the state block: `horizon + 1` samples of a 4-tuple. -/
def state_block_size (cfg : DAConfig) : ℕ := 4 * (cfg.horizon_ + 1)

/-- Size of the control block: `horizon` samples of a 2-tuple. -/
def control_block_size (cfg : DAConfig) : ℕ := 2 * cfg.horizon_

/-- Size of the time-scaling block: one positive scalar per transition. -/
def time_block_size (cfg : DAConfig) : ℕ := cfg.horizon_

/-- Size of the lambda dual block: one scalar per obstacle edge per sample. -/
def lambda_block_size (cfg : DAConfig) : ℕ :=
  obstacles_edges_sum_ cfg * (cfg.horizon_ + 1)

/-- Size of the mu dual block: one 2-vector per obstacle per sample. -/
def mu_block_size (cfg : DAConfig) : ℕ :=
  2 * cfg.obstacles_num_ * (cfg.horizon_ + 1)

/-- Start offset of the state block. -/
def state_start_index_ (_cfg : DAConfig) : ℕ := 0

/-- Start offset of the control block. -/
def control_start_index_ (cfg : DAConfig) : ℕ :=
  state_start_index_ cfg + state_block_size cfg

/-- Start offset of the time-scaling block. -/
def time_start_index_ (cfg : DAConfig) : ℕ :=
  control_start_index_ cfg + control_block_size cfg

/-- Start offset of the lambda dual block. -/
def l_start_index_ (cfg : DAConfig) : ℕ :=
  time_start_index_ cfg + time_block_size cfg

/-- Start offset of the mu dual block. -/
def n_start_index_ (cfg : DAConfig) : ℕ :=
  l_start_index_ cfg + lambda_block_size cfg

/-- Total number of decision variables, fixed at construction. -/
def num_of_variables_ (cfg : DAConfig) : ℕ :=
  n_start_index_ cfg + mu_block_size cfg

/-- Total number of constraint rows: 4 kinematic rows per transition plus,
per obstacle and time sample, two dual-feasibility equality rows, one
unit-norm row and one safety-margin row. -/
def num_of_constraints_ (cfg : DAConfig) : ℕ :=
  4 * cfg.horizon_ + 4 * cfg.obstacles_num_ * (cfg.horizon_ + 1)

/-- Flat index of state component `i` of sample `k`. -/
def stateIdx (k i : ℕ) : ℕ := 4 * k + i

/-- Flat index of control component `j` of sample `k`. -/
def controlIdx (cfg : DAConfig) (k j : ℕ) : ℕ :=
  control_start_index_ cfg + 2 * k + j

/-- Flat index of the time-scaling factor of transition `k`. -/
def timeIdx (cfg : DAConfig) (k : ℕ) : ℕ :=
  time_start_index_ cfg + k

/-- Flat index of lambda entry for global edge `ge` at time sample `k`. -/
def lambdaIdx (cfg : DAConfig) (k ge : ℕ) : ℕ :=
  l_start_index_ cfg + k * obstacles_edges_sum_ cfg + ge

/-- Flat index of mu component `j` of obstacle `o` at time sample `k`. -/
def muIdx (cfg : DAConfig) (k o j : ℕ) : ℕ :=
  n_start_index_ cfg + 2 * (k * cfg.obstacles_num_ + o) + j

/-! ### Objective and constraint formulations (spec sections 4.3 and 4.4)

Modelled from the spec: the bodies of the `eval_obj` / `eval_constraints`
templates are not in the sources (only their declarations are), so they are
reconstructed from spec sections 4.3 and 4.4, written once, generic over the
numeric type `T` exactly as the source templates are; rational constants enter
through the ring homomorphism `c`, mirroring the implicit conversion from
`double` into the abstract ADOL-C numeric type. -/

/-- Modelled from the spec: weighted sum of squared state-tracking error
against the target state at every sample, squared control magnitude, squared
control rate (first differences, including the stitching sample carried over
from the previous cycle), and first/second-order penalties pushing the
time-scaling factors toward `1` (missing from the sources: the body of the
`eval_obj` template). -/
def eval_obj (T : Type) [CommRing T] (c : ℚ →+* T) (cfg : DAConfig)
    (dat : BoundaryData) (x : ℕ → T) : T :=
  (∑ k ∈ Finset.range (cfg.horizon_ + 1),
      (c cfg.weight_state_x_ * (x (stateIdx k 0) - c (dat.xf_ 0)) ^ 2 +
       c cfg.weight_state_y_ * (x (stateIdx k 1) - c (dat.xf_ 1)) ^ 2 +
       c cfg.weight_state_phi_ * (x (stateIdx k 2) - c (dat.xf_ 2)) ^ 2 +
       c cfg.weight_state_v_ * (x (stateIdx k 3) - c (dat.xf_ 3)) ^ 2)) +
  (∑ k ∈ Finset.range cfg.horizon_,
      (c cfg.weight_input_steer_ * x (controlIdx cfg k 0) ^ 2 +
       c cfg.weight_input_a_ * x (controlIdx cfg k 1) ^ 2)) +
  (c cfg.weight_stitching_steer_ *
      (x (controlIdx cfg 0 0) - c (dat.last_time_u_ 0)) ^ 2 +
   c cfg.weight_stitching_a_ *
      (x (controlIdx cfg 0 1) - c (dat.last_time_u_ 1)) ^ 2) +
  (∑ k ∈ Finset.range (cfg.horizon_ - 1),
      (c cfg.weight_rate_steer_ *
          (x (controlIdx cfg (k + 1) 0) - x (controlIdx cfg k 0)) ^ 2 +
       c cfg.weight_rate_a_ *
          (x (controlIdx cfg (k + 1) 1) - x (controlIdx cfg k 1)) ^ 2)) +
  (∑ k ∈ Finset.range cfg.horizon_,
      (c cfg.weight_first_order_time_ * (x (timeIdx cfg k) - 1) +
       c cfg.weight_second_order_time_ * (x (timeIdx cfg k) - 1) ^ 2))

/-- Modelled from the spec: one discretized step of the bicycle model with
wheelbase-dependent steering-to-yaw-rate mapping (spec 4.4).  `invwb` is the
reciprocal of the wheelbase, injected as a constant; `s` is the state sample,
`u` the control sample, `h` the locally scaled interval; `i` selects the
component (x, y, heading, velocity). -/
def propagate (T : Type) [CommRing T] (tr : TrigOps T) (invwb : T)
    (s u : ℕ → T) (h : T) (i : ℕ) : T :=
  if i = 0 then s 0 + h * s 3 * tr.cos (s 2)
  else if i = 1 then s 1 + h * s 3 * tr.sin (s 2)
  else if i = 2 then s 2 + h * s 3 * tr.tan (u 0) * invwb
  else s 3 + h * u 1

/-- Kinematic residual of transition `k`, component `i`:
`state[k+1] - propagate(state[k], control[k], ts * time_scale[k])`. -/
def kinematic_residual (T : Type) [CommRing T] (c : ℚ →+* T) (tr : TrigOps T)
    (cfg : DAConfig) (x : ℕ → T) (k i : ℕ) : T :=
  x (stateIdx (k + 1) i) -
    propagate T tr (c (1 / cfg.wheelbase_)) (fun i2 => x (stateIdx k i2))
      (fun j => x (controlIdx cfg k j)) (c cfg.ts_ * x (timeIdx cfg k)) i

/-- Component `col` of the product of the transposed half-plane matrix of
obstacle `o` with that obstacle's lambda block at time sample `k`. -/
def atl (T : Type) [CommRing T] (c : ℚ →+* T) (cfg : DAConfig) (x : ℕ → T)
    (k o col : ℕ) : T :=
  ∑ e ∈ Finset.range (edges_num cfg o),
    c (cfg.obstacles_A_ (edges_before cfg o + e) col) *
      x (lambdaIdx cfg k (edges_before cfg o + e))

/-- Modelled from the spec: dual-feasibility rows for obstacle `o` at time
sample `k` (spec 3 and 4.4): rows `0`/`1` are the equality rows combining the
rotated half-plane data with mu, row `2` is the combined-norm row of mu, row
`3` the safety-margin row combining `(A, b)`, lambda, mu and the footprint
geometry at the current state and heading. -/
def dual_residual (T : Type) [CommRing T] (c : ℚ →+* T) (tr : TrigOps T)
    (cfg : DAConfig) (x : ℕ → T) (k o r : ℕ) : T :=
  if r = 0 then
    x (muIdx cfg k o 0) + tr.cos (x (stateIdx k 2)) * atl T c cfg x k o 0 +
      tr.sin (x (stateIdx k 2)) * atl T c cfg x k o 1
  else if r = 1 then
    x (muIdx cfg k o 1) - tr.sin (x (stateIdx k 2)) * atl T c cfg x k o 0 +
      tr.cos (x (stateIdx k 2)) * atl T c cfg x k o 1
  else if r = 2 then
    x (muIdx cfg k o 0) ^ 2 + x (muIdx cfg k o 1) ^ 2
  else
    (∑ e ∈ Finset.range (edges_num cfg o),
        x (lambdaIdx cfg k (edges_before cfg o + e)) *
          (c (cfg.obstacles_A_ (edges_before cfg o + e) 0) *
              (x (stateIdx k 0) + c cfg.offset_ * tr.cos (x (stateIdx k 2))) +
           c (cfg.obstacles_A_ (edges_before cfg o + e) 1) *
              (x (stateIdx k 1) + c cfg.offset_ * tr.sin (x (stateIdx k 2))) -
           c (cfg.obstacles_b_ (edges_before cfg o + e)))) -
      (c (cfg.w_ev_ / 2) * x (muIdx cfg k o 0) +
       c (cfg.l_ev_ / 2) * x (muIdx cfg k o 1))

/-- Modelled from the spec: the constraint residual vector (body of the
`eval_constraints` template, missing from the sources).  Rows `0 ≤ row <
4*horizon` are the kinematic residuals; the remaining rows are grouped by
time sample and obstacle, four rows per pair. -/
def eval_constraints (T : Type) [CommRing T] (c : ℚ →+* T) (tr : TrigOps T)
    (cfg : DAConfig) (x : ℕ → T) (row : ℕ) : T :=
  if row < 4 * cfg.horizon_ then
    kinematic_residual T c tr cfg x (row / 4) (row % 4)
  else
    dual_residual T c tr cfg x
      ((row - 4 * cfg.horizon_) / (4 * cfg.obstacles_num_))
      ((row - 4 * cfg.horizon_) % (4 * cfg.obstacles_num_) / 4)
      ((row - 4 * cfg.horizon_) % (4 * cfg.obstacles_num_) % 4)

/-! ### Bounds (spec section 4.2) -/

/-- Modelled from the spec: box bounds of decision variable `idx` (body of
`get_bounds_info`, missing from the sources).  States are bounded by the map
XY box and the vehicle speed limits (heading unbounded), controls by steering
and acceleration limits, time-scaling by the configured scaling window (or
pinned to `1` in fixed-time mode), lambda by `[0, max_lambda_]` and mu by
`[0, max_miu_]` componentwise. -/
def var_bounds (cfg : DAConfig) (idx : ℕ) : WithBot ℚ × WithTop ℚ :=
  if idx < control_start_index_ cfg then
    (if idx % 4 = 0 then (↑cfg.XYbounds_.1, ↑cfg.XYbounds_.2.1)
     else if idx % 4 = 1 then (↑cfg.XYbounds_.2.2.1, ↑cfg.XYbounds_.2.2.2)
     else if idx % 4 = 2 then (⊥, ⊤)
     else (↑(-cfg.max_speed_reverse_), ↑cfg.max_speed_forward_))
  else if idx < time_start_index_ cfg then
    (if (idx - control_start_index_ cfg) % 2 = 0 then
       (↑(-cfg.max_steer_angle_), ↑cfg.max_steer_angle_)
     else (↑(-cfg.max_acceleration_reverse_), ↑cfg.max_acceleration_forward_))
  else if idx < l_start_index_ cfg then
    (if cfg.use_fix_time_ then (((1 : ℚ) : WithBot ℚ), ((1 : ℚ) : WithTop ℚ))
     else (↑cfg.min_time_sample_scaling_, ↑cfg.max_time_sample_scaling_))
  else if idx < n_start_index_ cfg then
    (((0 : ℚ) : WithBot ℚ), ↑cfg.max_lambda_)
  else (((0 : ℚ) : WithBot ℚ), ↑cfg.max_miu_)

/-- Modelled from the spec: row bounds of constraint `row` (body of
`get_bounds_info`, missing from the sources).  Kinematic-consistency and
dual-feasibility rows are equalities at `0`, the combined-norm row of mu
collapses to the equality `1`, and the safety-margin row is bounded below by
the configured minimum safety distance, above by the configured cap when
finite capping is enabled and unbounded otherwise. -/
def con_bounds (cfg : DAConfig) (row : ℕ) : WithBot ℚ × WithTop ℚ :=
  if row < 4 * cfg.horizon_ then (((0 : ℚ) : WithBot ℚ), ((0 : ℚ) : WithTop ℚ))
  else if (row - 4 * cfg.horizon_) % (4 * cfg.obstacles_num_) % 4 = 2 then
    (((1 : ℚ) : WithBot ℚ), ((1 : ℚ) : WithTop ℚ))
  else if (row - 4 * cfg.horizon_) % (4 * cfg.obstacles_num_) % 4 = 3 then
    (↑cfg.min_safety_distance_,
      if cfg.use_safety_cap_ then ↑cfg.max_safety_distance_ else ⊤)
  else (((0 : ℚ) : WithBot ℚ), ((0 : ℚ) : WithTop ℚ))

/-- Modelled from the spec: the bounds callback packages the variable and row
bound maps, refusing size mismatches. -/
def get_bounds_info (cfg : DAConfig) (n m : ℕ) :
    Option ((ℕ → WithBot ℚ × WithTop ℚ) × (ℕ → WithBot ℚ × WithTop ℚ)) :=
  if n = num_of_variables_ cfg ∧ m = num_of_constraints_ cfg then
    some (var_bounds cfg, con_bounds cfg)
  else none

/-! ### Sparsity structures (spec sections 4.4 and 4.5) -/

/-- Columns against which the kinematic residual of transition `k`, component
`i`, is structurally nonzero: the adjacent state samples, that transition's
control sample and its time-scaling factor. -/
def kin_cols (cfg : DAConfig) (k i : ℕ) : List ℕ :=
  [stateIdx k 0, stateIdx k 1, stateIdx k 2, stateIdx k 3,
   stateIdx (k + 1) i, controlIdx cfg k 0, controlIdx cfg k 1, timeIdx cfg k]

/-- Columns against which the dual-feasibility rows of obstacle `o` at time
sample `k` are structurally nonzero: the current state sample, that
obstacle's lambda entries and its mu pair. -/
def dual_cols (cfg : DAConfig) (k o : ℕ) : List ℕ :=
  [stateIdx k 0, stateIdx k 1, stateIdx k 2] ++
    (List.range (edges_num cfg o)).map
      (fun e => lambdaIdx cfg k (edges_before cfg o + e)) ++
    [muIdx cfg k o 0, muIdx cfg k o 1]

/-- Modelled from the spec: the fixed (row, column) index pairs of the
structurally nonzero Jacobian entries, a pure function of the configuration,
independent of the evaluation point (spec section 3, sparsity invariant). -/
def jac_structure (cfg : DAConfig) : List (ℕ × ℕ) :=
  ((List.range (4 * cfg.horizon_)).map fun row =>
      (kin_cols cfg (row / 4) (row % 4)).map fun cl => (row, cl)).flatten ++
  ((List.range (4 * cfg.obstacles_num_ * (cfg.horizon_ + 1))).map fun d =>
      (dual_cols cfg (d / (4 * cfg.obstacles_num_))
          (d % (4 * cfg.obstacles_num_) / 4)).map
        fun cl => (4 * cfg.horizon_ + d, cl)).flatten

/-- Modelled from the spec: the fixed lower-triangular (row, column) index
pairs of the Hessian of the Lagrangian, a pure function of the configuration
(only one triangle is stored; symmetric by construction). -/
def hess_structure (cfg : DAConfig) : List (ℕ × ℕ) :=
  ((List.range (num_of_variables_ cfg)).map fun i =>
      (List.range (i + 1)).map fun j => (i, j)).flatten

/-- Modelled from the spec: the problem-size query, a pure function of the
configuration captured at construction (body of `get_nlp_info`, missing from
the sources): variable count, constraint count, Jacobian and Hessian nonzero
counts. -/
def get_nlp_info (cfg : DAConfig) : ℕ × ℕ × ℕ × ℕ :=
  (num_of_variables_ cfg, num_of_constraints_ cfg,
   (jac_structure cfg).length, (hess_structure cfg).length)

/-! ### Differentiation driver (spec section 4.5)

Modelled from the spec: the automatic-differentiation engine is external;
the driver replays the single generic formulation over a derivative-carrying
numeric type.  Dual numbers (`TrivSqZeroExt ℚ ℚ`) model one recorded forward
sweep; nesting them models the second pass for the Hessian. -/

/-- Lift of the trigonometric bundle to dual numbers, propagating the usual
derivative rules for sin, cos and tan. -/
def TrigOps.dual {T : Type} [CommRing T] (tr : TrigOps T) :
    TrigOps (DualNumber T) where
  sin p := TrivSqZeroExt.inl (tr.sin p.fst) +
    TrivSqZeroExt.inr (p.snd * tr.cos p.fst)
  cos p := TrivSqZeroExt.inl (tr.cos p.fst) +
    TrivSqZeroExt.inr (-(p.snd * tr.sin p.fst))
  tan p := TrivSqZeroExt.inl (tr.tan p.fst) +
    TrivSqZeroExt.inr (p.snd * (1 + tr.tan p.fst * tr.tan p.fst))

/-- Seed vector for one forward derivative sweep: every variable carries its
value and the unit perturbation of variable `j`. -/
def dualArg (x : ℕ → ℚ) (j : ℕ) : ℕ → DualNumber ℚ := fun i =>
  TrivSqZeroExt.inl (x i) + TrivSqZeroExt.inr (if i = j then 1 else 0)

/-- Value of the objective on the plain numeric path. -/
def eval_f_value (cfg : DAConfig) (dat : BoundaryData) (x : ℕ → ℚ) : ℚ :=
  eval_obj ℚ (RingHom.id ℚ) cfg dat x

/-- Gradient component `j` of the objective, obtained by replaying the same
generic formulation over dual numbers (the differentiation driver), never from
hand-derived formulas. -/
def eval_grad_f_value (cfg : DAConfig) (dat : BoundaryData) (x : ℕ → ℚ)
    (j : ℕ) : ℚ :=
  (eval_obj (DualNumber ℚ) (TrivSqZeroExt.inlHom ℚ ℚ) cfg dat (dualArg x j)).snd

/-- Jacobian entry at `(row, cl)`, obtained by replaying the same generic
constraint formulation over dual numbers seeded at column `cl`. -/
def jac_entry (cfg : DAConfig) (tr : TrigOps ℚ) (x : ℕ → ℚ) (row cl : ℕ) : ℚ :=
  (eval_constraints (DualNumber ℚ) (TrivSqZeroExt.inlHom ℚ ℚ) tr.dual cfg
      (dualArg x cl) row).snd

/-- Modelled from the spec: the Lagrangian whose Hessian the solver requests:
the objective scaled by `obj_factor` plus the constraint rows weighted by the
multipliers. -/
def eval_lagrangian (T : Type) [CommRing T] (c : ℚ →+* T) (tr : TrigOps T)
    (cfg : DAConfig) (dat : BoundaryData) (obj_factor : ℚ) (lam : ℕ → ℚ)
    (x : ℕ → T) : T :=
  c obj_factor * eval_obj T c cfg dat x +
    ∑ row ∈ Finset.range (num_of_constraints_ cfg),
      c (lam row) * eval_constraints T c tr cfg x row

/-- Seed vector for the second-order sweep: value, an inner perturbation of
variable `i` and an outer perturbation of variable `j`. -/
def dualArg2 (x : ℕ → ℚ) (i j : ℕ) : ℕ → DualNumber (DualNumber ℚ) := fun k =>
  TrivSqZeroExt.inl (dualArg x i k) +
    TrivSqZeroExt.inr (TrivSqZeroExt.inl (if k = j then 1 else 0))

set_option synthInstance.maxHeartbeats 1000000 in
/-- Hessian-of-Lagrangian entry `(i, j)`, obtained by replaying the generic
formulation over nested dual numbers (second differentiation pass). -/
def hess_entry (cfg : DAConfig) (dat : BoundaryData) (tr : TrigOps ℚ)
    (obj_factor : ℚ) (lam : ℕ → ℚ) (x : ℕ → ℚ) (i j : ℕ) : ℚ :=
  ((eval_lagrangian (DualNumber (DualNumber ℚ))
      ((TrivSqZeroExt.inlHom (DualNumber ℚ) (DualNumber ℚ)).comp
        (TrivSqZeroExt.inlHom ℚ ℚ))
      tr.dual.dual cfg dat obj_factor lam (dualArg2 x i j)).snd).snd

/-! ### Solver callbacks (spec sections 4.4, 6 and 7)

Each callback checks the supplied problem sizes against the stored ones and
whether the requested output buffer is present, and signals failure by a
`none` return (the boolean-false return of the source), never by crashing. -/

/-- Modelled from the spec: objective-value callback with per-call size and
buffer checks (spec section 7, per-call fatal taxonomy). -/
def eval_f (cfg : DAConfig) (dat : BoundaryData) (n : ℕ) (x : ℕ → ℚ)
    (obj_buffer : Bool) : Option ℚ :=
  if n = num_of_variables_ cfg ∧ obj_buffer = true then
    some (eval_f_value cfg dat x)
  else none

/-- Modelled from the spec: objective-gradient callback with per-call size and
buffer checks. -/
def eval_grad_f (cfg : DAConfig) (dat : BoundaryData) (n : ℕ) (x : ℕ → ℚ)
    (grad_buffer : Bool) : Option (ℕ → ℚ) :=
  if n = num_of_variables_ cfg ∧ grad_buffer = true then
    some (eval_grad_f_value cfg dat x)
  else none

/-- Modelled from the spec: constraint-residual callback with per-call size
and buffer checks. -/
def eval_g (cfg : DAConfig) (tr : TrigOps ℚ) (n : ℕ) (x : ℕ → ℚ) (m : ℕ)
    (g_buffer : Bool) : Option (ℕ → ℚ) :=
  if n = num_of_variables_ cfg ∧ m = num_of_constraints_ cfg ∧
      g_buffer = true then
    some (eval_constraints ℚ (RingHom.id ℚ) tr cfg x)
  else none

/-- Query mode of the sparse Jacobian callback: a structure query (null value
buffer) or a value query at a point. -/
inductive JacMode
| structureQuery : JacMode
| valueQuery : (ℕ → ℚ) → JacMode

/-- Modelled from the spec: sparse-Jacobian callback.  Both modes report the
same fixed (row, column) structure; the value mode additionally evaluates the
entries through the differentiation driver.  Size mismatches fail. -/
def eval_jac_g (cfg : DAConfig) (tr : TrigOps ℚ) (n m : ℕ) (mode : JacMode) :
    Option (List (ℕ × ℕ) × List ℚ) :=
  if n = num_of_variables_ cfg ∧ m = num_of_constraints_ cfg then
    some (jac_structure cfg,
      match mode with
      | .structureQuery => []
      | .valueQuery x =>
          (jac_structure cfg).map fun rc => jac_entry cfg tr x rc.1 rc.2)
  else none

/-- Query mode of the sparse Hessian callback: a structure query or a value
query at a point with an objective factor and constraint multipliers. -/
inductive HessMode
| structureQuery : HessMode
| valueQuery : (ℕ → ℚ) → ℚ → (ℕ → ℚ) → HessMode

/-- Modelled from the spec: sparse Hessian-of-Lagrangian callback, in the same
two modes, over the fixed lower-triangular structure. -/
def eval_h (cfg : DAConfig) (dat : BoundaryData) (tr : TrigOps ℚ) (n m : ℕ)
    (mode : HessMode) : Option (List (ℕ × ℕ) × List ℚ) :=
  if n = num_of_variables_ cfg ∧ m = num_of_constraints_ cfg then
    some (hess_structure cfg,
      match mode with
      | .structureQuery => []
      | .valueQuery x obj_factor lam =>
          (hess_structure cfg).map fun rc =>
            hess_entry cfg dat tr obj_factor lam x rc.1 rc.2)
  else none

/-! ### Warm start (spec section 4.2) -/

/-- Externally supplied warm-start trajectories: state, control and time
matrices, and optionally the dual-variable pair. -/
structure WarmStart where
  xWS_ : MatQ
  uWS_ : MatQ
  timeWS_ : MatQ
  dualWS_ : Option (MatQ × MatQ)

/-- Shape check of the warm-start matrices against the expected block sizes. -/
def shapes_ok (cfg : DAConfig) (ws : WarmStart) : Bool :=
  (ws.xWS_.rows == 4) && (ws.xWS_.cols == cfg.horizon_ + 1) &&
  (ws.uWS_.rows == 2) && (ws.uWS_.cols == cfg.horizon_) &&
  (ws.timeWS_.rows == 1) && (ws.timeWS_.cols == cfg.horizon_) &&
  (match ws.dualWS_ with
   | none => true
   | some lw =>
       (lw.1.rows == obstacles_edges_sum_ cfg) &&
       (lw.1.cols == cfg.horizon_ + 1) &&
       (lw.2.rows == 2 * cfg.obstacles_num_) &&
       (lw.2.cols == cfg.horizon_ + 1))

/-- Initial decision vector assembled from the warm start: the state, control
and time matrices fill their blocks; the dual blocks are filled from the dual
warm start when present and are zero otherwise. -/
def warm_start_vector (cfg : DAConfig) (ws : WarmStart) : ℕ → ℚ := fun idx =>
  if idx < control_start_index_ cfg then
    ws.xWS_.entry (idx % 4) (idx / 4)
  else if idx < time_start_index_ cfg then
    ws.uWS_.entry ((idx - control_start_index_ cfg) % 2)
      ((idx - control_start_index_ cfg) / 2)
  else if idx < l_start_index_ cfg then
    ws.timeWS_.entry 0 (idx - time_start_index_ cfg)
  else if idx < n_start_index_ cfg then
    match ws.dualWS_ with
    | none => 0
    | some lw =>
        lw.1.entry ((idx - l_start_index_ cfg) % obstacles_edges_sum_ cfg)
          ((idx - l_start_index_ cfg) / obstacles_edges_sum_ cfg)
  else
    match ws.dualWS_ with
    | none => 0
    | some lw =>
        lw.2.entry ((idx - n_start_index_ cfg) % (2 * cfg.obstacles_num_))
          ((idx - n_start_index_ cfg) / (2 * cfg.obstacles_num_))

/-- Modelled from the spec: the starting-point callback (body of
`get_starting_point`, missing from the sources): copies the warm-start
matrices into the corresponding blocks, defaults the dual blocks to zero when
the dual warm start is absent, and fails on any shape mismatch. -/
def get_starting_point (cfg : DAConfig) (ws : WarmStart) : Option (ℕ → ℚ) :=
  if shapes_ok cfg ws = true then some (warm_start_vector cfg ws) else none

/-! ### Solution extractor (spec section 4.6) -/

/-- Solver termination statuses relevant to the finalize callback. -/
inductive SolverReturn
| SUCCESS : SolverReturn
| LOCAL_INFEASIBILITY : SolverReturn
| MAXITER_EXCEEDED : SolverReturn
| USER_REQUESTED_STOP : SolverReturn
deriving DecidableEq

/-- Mutable result state of the formulator instance: the five result
containers and the recorded termination status. -/
structure FormState where
  state_result_ : MatQ
  control_result_ : MatQ
  time_result_ : MatQ
  dual_l_result_ : MatQ
  dual_n_result_ : MatQ
  status_ : Option SolverReturn

/-- The zero-sized matrix, the initial content of every result container. -/
def emptyMat : MatQ := ⟨0, 0, fun _ _ => 0⟩

/-- State of a freshly constructed formulator: all result containers are
zero-sized and no termination status has been recorded. -/
def init_form_state : FormState :=
  ⟨emptyMat, emptyMat, emptyMat, emptyMat, emptyMat, none⟩

/-- Modelled from the spec: the finalize callback (body of
`finalize_solution`, missing from the sources): regardless of the solver
status it splits the final flat vector into the state, control, time and dual
result containers and records the termination status. -/
def finalize_solution (cfg : DAConfig) (status : SolverReturn) (x : ℕ → ℚ)
    (_s : FormState) : FormState :=
  { state_result_ := ⟨cfg.horizon_ + 1, 4, fun k i => x (stateIdx k i)⟩
    control_result_ := ⟨cfg.horizon_, 2, fun k j => x (controlIdx cfg k j)⟩
    time_result_ := ⟨cfg.horizon_, 1, fun k _ => x (timeIdx cfg k)⟩
    dual_l_result_ := ⟨obstacles_edges_sum_ cfg, cfg.horizon_ + 1,
      fun ge k => x (lambdaIdx cfg k ge)⟩
    dual_n_result_ := ⟨2 * cfg.obstacles_num_, cfg.horizon_ + 1,
      fun ri k => x (n_start_index_ cfg + 2 * (k * cfg.obstacles_num_) + ri)⟩
    status_ := some status }

/-- Results observer, declared `const` in the source header: it returns the
previously captured containers and leaves the formulator state untouched
(state-passing model of the same call). -/
def get_optimization_results (s : FormState) :
    FormState × (MatQ × MatQ × MatQ × MatQ × MatQ) :=
  (s, (s.state_result_, s.control_result_, s.time_result_,
    s.dual_l_result_, s.dual_n_result_))

/-! ### Concrete test scenario (spec section 8)

Horizon 2, a single square obstacle with 4 edges placed far from the vehicle,
zero initial velocity, zero steering and acceleration warm start, start state
equal to the end state. -/

/-- Placeholder rational trigonometric bundle for concrete evaluations (the
properties proved below hold for every bundle unless they are genuinely
trig-independent). -/
def trEx : TrigOps ℚ := ⟨fun _ => 0, fun _ => 1, fun t => t⟩

/-- Stationary start (and end) state of the concrete scenario: position
`(1, 2)`, heading `1/10`, velocity `0`. -/
def startState : ℕ → ℚ := fun i =>
  if i = 0 then 1 else if i = 1 then 2 else if i = 2 then 1 / 10 else 0

/-- Concrete configuration of the test scenario: horizon 2, one obstacle with
4 edges (the unit square box `[20, 21] × [20, 21]`, far from the vehicle). -/
def cfgEx : DAConfig where
  horizon_ := 2
  ts_ := 1 / 2
  wheelbase_ := 14 / 5
  offset_ := 1
  w_ev_ := 2
  l_ev_ := 4
  weight_state_x_ := 1
  weight_state_y_ := 1
  weight_state_phi_ := 1
  weight_state_v_ := 1
  weight_input_steer_ := 1
  weight_input_a_ := 1
  weight_rate_steer_ := 1
  weight_rate_a_ := 1
  weight_stitching_steer_ := 1
  weight_stitching_a_ := 1
  weight_first_order_time_ := 1
  weight_second_order_time_ := 1
  XYbounds_ := (-10, 10, -10, 10)
  max_steer_angle_ := 7 / 10
  max_speed_forward_ := 5
  max_speed_reverse_ := 2
  max_acceleration_forward_ := 2
  max_acceleration_reverse_ := 2
  min_time_sample_scaling_ := 1 / 2
  max_time_sample_scaling_ := 3 / 2
  min_safety_distance_ := 0
  max_safety_distance_ := 10
  use_safety_cap_ := false
  max_lambda_ := 10
  max_miu_ := 10
  obstacles_num_ := 1
  obstacles_edges_num_ := [4]
  obstacles_A_ := fun e j =>
    if j = 0 then (if e = 0 then 1 else if e = 1 then 0 else
      if e = 2 then -1 else 0)
    else (if e = 0 then 0 else if e = 1 then 1 else if e = 2 then 0 else -1)
  obstacles_b_ := fun e =>
    if e = 0 then 21 else if e = 1 then 21 else -20
  use_fix_time_ := false

/-- Boundary data of the test scenario: the target state equals the start
state and the previous-cycle control is zero. -/
def datEx : BoundaryData := ⟨startState, fun _ => 0⟩

/-- Warm start of the test scenario: the stationary state trajectory, zero
controls, unit time scaling, no dual warm start. -/
def wsEx : WarmStart where
  xWS_ := ⟨4, 3, fun i _ => startState i⟩
  uWS_ := ⟨2, 2, fun _ _ => 0⟩
  timeWS_ := ⟨1, 2, fun _ _ => 1⟩
  dualWS_ := none

/-- A malformed warm start: the state matrix has the wrong number of rows. -/
def wsBadEx : WarmStart where
  xWS_ := ⟨3, 3, fun _ _ => 0⟩
  uWS_ := ⟨2, 2, fun _ _ => 0⟩
  timeWS_ := ⟨1, 2, fun _ _ => 1⟩
  dualWS_ := none

/-! ## Theorems -/

/-- Closed linear forms of the block start offsets, shared by the index
arithmetic below. -/
theorem offsets_linear (cfg : DAConfig) :
    control_start_index_ cfg = 4 * cfg.horizon_ + 4 ∧
    time_start_index_ cfg = 6 * cfg.horizon_ + 4 ∧
    l_start_index_ cfg = 7 * cfg.horizon_ + 4 ∧
    n_start_index_ cfg =
      7 * cfg.horizon_ + 4 + obstacles_edges_sum_ cfg * (cfg.horizon_ + 1) ∧
    num_of_variables_ cfg =
      7 * cfg.horizon_ + 4 + obstacles_edges_sum_ cfg * (cfg.horizon_ + 1) +
        2 * cfg.obstacles_num_ * (cfg.horizon_ + 1) := by
  simp only [control_start_index_, time_start_index_, l_start_index_,
    n_start_index_, num_of_variables_, state_start_index_, state_block_size,
    control_block_size, time_block_size, lambda_block_size, mu_block_size]
  omega

/-- Decoding a constraint-row offset of the dual block back into its time
sample, obstacle and row kind. -/
theorem dual_row_decode (obs k o r : ℕ) (ho : o < obs) (hr : r < 4) :
    (4 * (k * obs + o) + r) % (4 * obs) % 4 = r ∧
    (4 * (k * obs + o) + r) % (4 * obs) / 4 = o ∧
    (4 * (k * obs + o) + r) / (4 * obs) = k := by
  have h1 : 4 * (k * obs + o) + r = 4 * o + r + k * (4 * obs) := by ring
  have h2 : 4 * o + r < 4 * obs := by omega
  have hm : (4 * (k * obs + o) + r) % (4 * obs) = 4 * o + r := by
    rw [h1, Nat.add_mul_mod_self_right, Nat.mod_eq_of_lt h2]
  have hobs : 0 < 4 * obs := by omega
  refine ⟨?_, ?_, ?_⟩
  · rw [hm]; omega
  · rw [hm]; omega
  · rw [h1, Nat.add_mul_div_right _ _ hobs, Nat.div_eq_of_lt h2, Nat.zero_add]

/-- Decoding a kinematic constraint-row index back into its transition and
component. -/
theorem kin_row_decode (k i : ℕ) (hi : i < 4) :
    (4 * k + i) / 4 = k ∧ (4 * k + i) % 4 = i := by omega

/-- C4: the block sizes and start offsets of the decision vector are pure
functions of horizon, obstacle count and per-obstacle edge counts (fixed at
construction and never changed); the sum of the five block sizes equals
`num_of_variables_`; and the problem-size query returns the same variable and
constraint counts on every call to the same instance. -/
theorem layout_pure_functions_and_block_sum (cfg cfg' : DAConfig)
    (hh : cfg.horizon_ = cfg'.horizon_)
    (ho : cfg.obstacles_num_ = cfg'.obstacles_num_)
    (he : cfg.obstacles_edges_num_ = cfg'.obstacles_edges_num_) :
    (state_block_size cfg = state_block_size cfg' ∧
     control_block_size cfg = control_block_size cfg' ∧
     time_block_size cfg = time_block_size cfg' ∧
     lambda_block_size cfg = lambda_block_size cfg' ∧
     mu_block_size cfg = mu_block_size cfg' ∧
     state_start_index_ cfg = state_start_index_ cfg' ∧
     control_start_index_ cfg = control_start_index_ cfg' ∧
     time_start_index_ cfg = time_start_index_ cfg' ∧
     l_start_index_ cfg = l_start_index_ cfg' ∧
     n_start_index_ cfg = n_start_index_ cfg' ∧
     num_of_variables_ cfg = num_of_variables_ cfg' ∧
     num_of_constraints_ cfg = num_of_constraints_ cfg') ∧
    (state_block_size cfg + control_block_size cfg + time_block_size cfg +
      lambda_block_size cfg + mu_block_size cfg = num_of_variables_ cfg) ∧
    ((get_nlp_info cfg).1 = num_of_variables_ cfg ∧
     (get_nlp_info cfg).2.1 = num_of_constraints_ cfg ∧
     get_nlp_info cfg = get_nlp_info cfg) := by
  refine ⟨?_, ?_, rfl, rfl, rfl⟩
  · simp only [state_block_size, control_block_size, time_block_size,
      lambda_block_size, mu_block_size, state_start_index_,
      control_start_index_, time_start_index_, l_start_index_, n_start_index_,
      num_of_variables_, num_of_constraints_, obstacles_edges_sum_, hh, ho, he]
    tauto
  · simp only [num_of_variables_, n_start_index_, l_start_index_,
      time_start_index_, control_start_index_, state_start_index_]
    omega

/-- Witness for C4 at the concrete scenario configuration. -/
theorem layout_pure_functions_and_block_sum_witness :
    cfgEx.horizon_ = cfgEx.horizon_ ∧
    cfgEx.obstacles_num_ = cfgEx.obstacles_num_ ∧
    cfgEx.obstacles_edges_num_ = cfgEx.obstacles_edges_num_ ∧
    (state_block_size cfgEx + control_block_size cfgEx + time_block_size cfgEx +
      lambda_block_size cfgEx + mu_block_size cfgEx = num_of_variables_ cfgEx) :=
  ⟨rfl, rfl, rfl,
    (layout_pure_functions_and_block_sum cfgEx cfgEx rfl rfl rfl).2.1⟩

/-- C10: the results observer is const: it leaves the formulator state
untouched, and two successive calls (with no intervening finalize) return
identical state, control, time and dual matrices. -/
theorem get_optimization_results_const (s : FormState) :
    (get_optimization_results s).1 = s ∧
    (get_optimization_results s).2 =
      (get_optimization_results ((get_optimization_results s).1)).2 :=
  ⟨rfl, rfl⟩

/-- C7: for every solver termination status the finalize callback copies the
final flat vector's state, control, time and dual blocks into the result
containers and records the status; the results observer then returns
trajectories shaped `(horizon+1, 4)` and `(horizon, 2)`; and querying results
before finalize has run yields zero-sized matrices. -/
theorem finalize_solution_populates_results (cfg : DAConfig)
    (status : SolverReturn) (x : ℕ → ℚ) (s : FormState) :
    ((get_optimization_results (finalize_solution cfg status x s)).2.1.rows =
        cfg.horizon_ + 1 ∧
     (get_optimization_results (finalize_solution cfg status x s)).2.1.cols =
        4) ∧
    ((get_optimization_results (finalize_solution cfg status x s)).2.2.1.rows =
        cfg.horizon_ ∧
     (get_optimization_results (finalize_solution cfg status x s)).2.2.1.cols =
        2) ∧
    (∀ k i, (finalize_solution cfg status x s).state_result_.entry k i =
        x (stateIdx k i)) ∧
    (∀ k j, (finalize_solution cfg status x s).control_result_.entry k j =
        x (controlIdx cfg k j)) ∧
    (∀ k j, (finalize_solution cfg status x s).time_result_.entry k j =
        x (timeIdx cfg k)) ∧
    (∀ ge k, (finalize_solution cfg status x s).dual_l_result_.entry ge k =
        x (lambdaIdx cfg k ge)) ∧
    (∀ ri k, (finalize_solution cfg status x s).dual_n_result_.entry ri k =
        x (n_start_index_ cfg + 2 * (k * cfg.obstacles_num_) + ri)) ∧
    ((finalize_solution cfg status x s).status_ = some status) ∧
    ((get_optimization_results init_form_state).2.1.rows = 0 ∧
     (get_optimization_results init_form_state).2.1.cols = 0 ∧
     (get_optimization_results init_form_state).2.2.1.rows = 0 ∧
     (get_optimization_results init_form_state).2.2.1.cols = 0 ∧
     (get_optimization_results init_form_state).2.2.2.1.rows = 0 ∧
     (get_optimization_results init_form_state).2.2.2.2.1.rows = 0 ∧
     (get_optimization_results init_form_state).2.2.2.2.2.rows = 0) := by
  exact ⟨⟨rfl, rfl⟩, ⟨rfl, rfl⟩, fun k i => rfl, fun k j => rfl,
    fun k j => rfl, fun ge k => rfl, fun ri k => rfl, rfl,
    rfl, rfl, rfl, rfl, rfl, rfl, rfl⟩

/-- C3: the Jacobian and Hessian sparsity structures are fixed and
independent of the evaluation point: any two calls to the Jacobian (or
Hessian) callback on the same instance, in structure mode or value mode,
report identical (row, column) index sets. -/
theorem sparsity_structure_fixed (cfg : DAConfig) (dat : BoundaryData)
    (tr : TrigOps ℚ) (n m : ℕ) (jm1 jm2 : JacMode) (hm1 hm2 : HessMode) :
    Option.map Prod.fst (eval_jac_g cfg tr n m jm1) =
      Option.map Prod.fst (eval_jac_g cfg tr n m jm2) ∧
    Option.map Prod.fst (eval_h cfg dat tr n m hm1) =
      Option.map Prod.fst (eval_h cfg dat tr n m hm2) := by
  unfold eval_jac_g eval_h
  constructor <;> split_ifs <;> simp

/-- C9: every evaluator callback invoked with an `n` or `m` inconsistent with
the stored problem size, or with its output buffer absent where values were
requested, signals failure by returning the failure value (no crash, no
retry, no recovery inside the core). -/
theorem evaluators_fail_on_malformed_input (cfg : DAConfig)
    (dat : BoundaryData) (tr : TrigOps ℚ) (n m : ℕ) (x : ℕ → ℚ)
    (jm : JacMode) (hm : HessMode)
    (hn : n ≠ num_of_variables_ cfg) (hmm : m ≠ num_of_constraints_ cfg) :
    eval_f cfg dat n x true = none ∧
    eval_f cfg dat (num_of_variables_ cfg) x false = none ∧
    eval_grad_f cfg dat n x true = none ∧
    eval_grad_f cfg dat (num_of_variables_ cfg) x false = none ∧
    eval_g cfg tr n x (num_of_constraints_ cfg) true = none ∧
    eval_g cfg tr (num_of_variables_ cfg) x m true = none ∧
    eval_g cfg tr (num_of_variables_ cfg) x (num_of_constraints_ cfg) false =
      none ∧
    eval_jac_g cfg tr n m jm = none ∧
    eval_jac_g cfg tr (num_of_variables_ cfg) m jm = none ∧
    eval_h cfg dat tr n m hm = none ∧
    eval_h cfg dat tr (num_of_variables_ cfg) m hm = none := by
  refine ⟨?_, ?_, ?_, ?_, ?_, ?_, ?_, ?_, ?_, ?_, ?_⟩ <;>
    simp [eval_f, eval_grad_f, eval_g, eval_jac_g, eval_h, hn, hmm]

/-- Witness for C9 at the concrete scenario configuration with off-by-one
problem sizes. -/
theorem evaluators_fail_on_malformed_input_witness :
    (num_of_variables_ cfgEx + 1 ≠ num_of_variables_ cfgEx) ∧
    (num_of_constraints_ cfgEx + 1 ≠ num_of_constraints_ cfgEx) ∧
    eval_f cfgEx datEx (num_of_variables_ cfgEx + 1) (fun _ => 0) true =
      none :=
  ⟨by decide, by decide,
    (evaluators_fail_on_malformed_input cfgEx datEx trEx
      (num_of_variables_ cfgEx + 1) (num_of_constraints_ cfgEx + 1)
      (fun _ => 0) JacMode.structureQuery HessMode.structureQuery
      (by decide) (by decide)).1⟩

/-- C5: the bounds callback gives the lambda block the box `[0, max_lambda_]`
and the mu block the box `[0, max_miu_]` componentwise, collapses the
combined-norm row of mu to the equality `1`, makes every
kinematic-consistency and dual-feasibility row an equality at `0`, and bounds
the safety-margin row below by the configured minimum safety distance and
above by the configured cap when finite capping is enabled, `+infinity`
otherwise. -/
theorem get_bounds_info_families (cfg : DAConfig) (idxl idxn krow k o : ℕ)
    (hl1 : l_start_index_ cfg ≤ idxl) (hl2 : idxl < n_start_index_ cfg)
    (hn1 : n_start_index_ cfg ≤ idxn) (_hn2 : idxn < num_of_variables_ cfg)
    (hk : krow < 4 * cfg.horizon_) (ho : o < cfg.obstacles_num_) :
    (get_bounds_info cfg (num_of_variables_ cfg) (num_of_constraints_ cfg) =
      some (var_bounds cfg, con_bounds cfg)) ∧
    var_bounds cfg idxl =
      (((0 : ℚ) : WithBot ℚ), (↑cfg.max_lambda_ : WithTop ℚ)) ∧
    var_bounds cfg idxn =
      (((0 : ℚ) : WithBot ℚ), (↑cfg.max_miu_ : WithTop ℚ)) ∧
    con_bounds cfg krow = (((0 : ℚ) : WithBot ℚ), ((0 : ℚ) : WithTop ℚ)) ∧
    con_bounds cfg
        (4 * cfg.horizon_ + (4 * (k * cfg.obstacles_num_ + o) + 0)) =
      (((0 : ℚ) : WithBot ℚ), ((0 : ℚ) : WithTop ℚ)) ∧
    con_bounds cfg
        (4 * cfg.horizon_ + (4 * (k * cfg.obstacles_num_ + o) + 1)) =
      (((0 : ℚ) : WithBot ℚ), ((0 : ℚ) : WithTop ℚ)) ∧
    con_bounds cfg
        (4 * cfg.horizon_ + (4 * (k * cfg.obstacles_num_ + o) + 2)) =
      (((1 : ℚ) : WithBot ℚ), ((1 : ℚ) : WithTop ℚ)) ∧
    con_bounds cfg
        (4 * cfg.horizon_ + (4 * (k * cfg.obstacles_num_ + o) + 3)) =
      ((↑cfg.min_safety_distance_ : WithBot ℚ),
        if cfg.use_safety_cap_ then (↑cfg.max_safety_distance_ : WithTop ℚ)
        else ⊤) := by
  obtain ⟨e1, e2, e3, e4, e5⟩ := offsets_linear cfg
  refine ⟨?_, ?_, ?_, ?_, ?_, ?_, ?_, ?_⟩
  · unfold get_bounds_info
    rw [if_pos ⟨rfl, rfl⟩]
  · unfold var_bounds
    rw [if_neg (by omega), if_neg (by omega), if_neg (by omega),
      if_pos (by omega)]
  · unfold var_bounds
    rw [if_neg (by omega), if_neg (by omega), if_neg (by omega),
      if_neg (by omega)]
  · unfold con_bounds
    rw [if_pos hk]
  · have hd := dual_row_decode cfg.obstacles_num_ k o 0 ho (by omega)
    unfold con_bounds
    rw [if_neg (by omega),
      show 4 * cfg.horizon_ + (4 * (k * cfg.obstacles_num_ + o) + 0) -
          4 * cfg.horizon_ = 4 * (k * cfg.obstacles_num_ + o) + 0 from by omega,
      if_neg (by rw [hd.1]; omega), if_neg (by rw [hd.1]; omega)]
  · have hd := dual_row_decode cfg.obstacles_num_ k o 1 ho (by omega)
    unfold con_bounds
    rw [if_neg (by omega),
      show 4 * cfg.horizon_ + (4 * (k * cfg.obstacles_num_ + o) + 1) -
          4 * cfg.horizon_ = 4 * (k * cfg.obstacles_num_ + o) + 1 from by omega,
      if_neg (by rw [hd.1]; omega), if_neg (by rw [hd.1]; omega)]
  · have hd := dual_row_decode cfg.obstacles_num_ k o 2 ho (by omega)
    unfold con_bounds
    rw [if_neg (by omega),
      show 4 * cfg.horizon_ + (4 * (k * cfg.obstacles_num_ + o) + 2) -
          4 * cfg.horizon_ = 4 * (k * cfg.obstacles_num_ + o) + 2 from by omega,
      if_pos (by rw [hd.1])]
  · have hd := dual_row_decode cfg.obstacles_num_ k o 3 ho (by omega)
    unfold con_bounds
    rw [if_neg (by omega),
      show 4 * cfg.horizon_ + (4 * (k * cfg.obstacles_num_ + o) + 3) -
          4 * cfg.horizon_ = 4 * (k * cfg.obstacles_num_ + o) + 3 from by omega,
      if_neg (by rw [hd.1]; omega), if_pos (by rw [hd.1])]

/-- Witness for C5 at the concrete scenario configuration: the concrete
lambda and mu block indices and the concrete norm-row bounds. -/
theorem get_bounds_info_families_witness :
    (l_start_index_ cfgEx ≤ 18 ∧ 18 < n_start_index_ cfgEx ∧
     n_start_index_ cfgEx ≤ 30 ∧ 30 < num_of_variables_ cfgEx ∧
     0 < 4 * cfgEx.horizon_ ∧ 0 < cfgEx.obstacles_num_) ∧
    var_bounds cfgEx 18 =
      (((0 : ℚ) : WithBot ℚ), (↑cfgEx.max_lambda_ : WithTop ℚ)) :=
  ⟨⟨by decide, by decide, by decide, by decide, by decide, by decide⟩,
    (get_bounds_info_families cfgEx 18 30 0 0 0 (by decide) (by decide)
      (by decide) (by decide) (by decide) (by decide)).2.1⟩

/-- C1: for every transition `k` and component `i`, the constraint evaluator
computes the kinematic residual as
`state[k+1] - propagate(state[k], control[k], ts * time_scale[k])`, where
`propagate` is one discretized bicycle-model step with wheelbase-dependent
steering-to-yaw-rate mapping, and these rows are equality rows (any value
admitted by their bounds is zero). -/
theorem eval_constraints_kinematic_rows (cfg : DAConfig) (tr : TrigOps ℚ)
    (x : ℕ → ℚ) (k i : ℕ) (hk : k < cfg.horizon_) (hi : i < 4) :
    eval_constraints ℚ (RingHom.id ℚ) tr cfg x (4 * k + i) =
      x (stateIdx (k + 1) i) -
        propagate ℚ tr (1 / cfg.wheelbase_) (fun i2 => x (stateIdx k i2))
          (fun j => x (controlIdx cfg k j)) (cfg.ts_ * x (timeIdx cfg k)) i ∧
    con_bounds cfg (4 * k + i) =
      (((0 : ℚ) : WithBot ℚ), ((0 : ℚ) : WithTop ℚ)) ∧
    (∀ v : ℚ, (con_bounds cfg (4 * k + i)).1 ≤ ((v : ℚ) : WithBot ℚ) →
      ((v : ℚ) : WithTop ℚ) ≤ (con_bounds cfg (4 * k + i)).2 → v = 0) := by
  have h4 : 4 * k + i < 4 * cfg.horizon_ := by omega
  have hdiv : (4 * k + i) / 4 = k := by omega
  have hmod : (4 * k + i) % 4 = i := by omega
  have hb : con_bounds cfg (4 * k + i) =
      (((0 : ℚ) : WithBot ℚ), ((0 : ℚ) : WithTop ℚ)) := by
    unfold con_bounds
    rw [if_pos h4]
  refine ⟨?_, hb, ?_⟩
  · unfold eval_constraints
    rw [if_pos h4, hdiv, hmod]
    rfl
  · intro v h1 h2
    rw [hb] at h1 h2
    simp only [WithBot.coe_le_coe, WithTop.coe_le_coe] at h1 h2
    exact le_antisymm h2 h1

/-- Witness for C1 at the concrete scenario, transition 0, component 0. -/
theorem eval_constraints_kinematic_rows_witness :
    (0 < cfgEx.horizon_ ∧ 0 < 4) ∧
    eval_constraints ℚ (RingHom.id ℚ) trEx cfgEx (fun _ => 0) 0 =
      (fun _ => (0 : ℚ)) (stateIdx 1 0) -
        propagate ℚ trEx (1 / cfgEx.wheelbase_)
          (fun i2 => (fun _ => (0 : ℚ)) (stateIdx 0 i2))
          (fun j => (fun _ => (0 : ℚ)) (controlIdx cfgEx 0 j))
          (cfgEx.ts_ * (fun _ => (0 : ℚ)) (timeIdx cfgEx 0)) 0 :=
  ⟨⟨by decide, by decide⟩,
    (eval_constraints_kinematic_rows cfgEx trEx (fun _ => 0) 0 0
      (by decide) (by decide)).1⟩

/-- C6: the starting-point callback copies the warm-start state, control and
time matrices into their decision-vector blocks, zeroes the lambda and mu
blocks when the dual warm start is absent, and fails when any warm-start
matrix's shape does not match the expected block size. -/
theorem get_starting_point_spec (cfg : DAConfig) (ws ws' : WarmStart)
    (hok : shapes_ok cfg ws = true) (hbad : shapes_ok cfg ws' = false) :
    (get_starting_point cfg ws = some (warm_start_vector cfg ws)) ∧
    (∀ k i, k < cfg.horizon_ + 1 → i < 4 →
      warm_start_vector cfg ws (stateIdx k i) = ws.xWS_.entry i k) ∧
    (∀ k j, k < cfg.horizon_ → j < 2 →
      warm_start_vector cfg ws (controlIdx cfg k j) = ws.uWS_.entry j k) ∧
    (∀ k, k < cfg.horizon_ →
      warm_start_vector cfg ws (timeIdx cfg k) = ws.timeWS_.entry 0 k) ∧
    (ws.dualWS_ = none → ∀ idx, l_start_index_ cfg ≤ idx →
      warm_start_vector cfg ws idx = 0) ∧
    (get_starting_point cfg ws' = none) := by
  obtain ⟨e1, e2, e3, e4, e5⟩ := offsets_linear cfg
  refine ⟨?_, ?_, ?_, ?_, ?_, ?_⟩
  · unfold get_starting_point
    rw [if_pos hok]
  · intro k i hk hi
    unfold warm_start_vector
    rw [if_pos (by unfold stateIdx; omega)]
    have hm : stateIdx k i % 4 = i := by unfold stateIdx; omega
    have hd : stateIdx k i / 4 = k := by unfold stateIdx; omega
    rw [hm, hd]
  · intro k j hk hj
    unfold warm_start_vector
    rw [if_neg (by unfold controlIdx; omega),
      if_pos (by unfold controlIdx; omega)]
    have hm : (controlIdx cfg k j - control_start_index_ cfg) % 2 = j := by
      unfold controlIdx; omega
    have hd : (controlIdx cfg k j - control_start_index_ cfg) / 2 = k := by
      unfold controlIdx; omega
    rw [hm, hd]
  · intro k hk
    unfold warm_start_vector
    rw [if_neg (by unfold timeIdx; omega), if_neg (by unfold timeIdx; omega),
      if_pos (by unfold timeIdx; omega)]
    have hd : timeIdx cfg k - time_start_index_ cfg = k := by
      unfold timeIdx; omega
    rw [hd]
  · intro hdn idx hidx
    unfold warm_start_vector
    rw [hdn]
    split_ifs with h1 h2 h3 h4
    · omega
    · omega
    · omega
    · rfl
    · rfl
  · unfold get_starting_point
    rw [if_neg (by rw [hbad]; exact Bool.false_ne_true)]

/-- Witness for C6: the concrete warm start passes, the malformed one fails. -/
theorem get_starting_point_spec_witness :
    (shapes_ok cfgEx wsEx = true ∧ shapes_ok cfgEx wsBadEx = false) ∧
    get_starting_point cfgEx wsBadEx = none :=
  ⟨⟨by decide, by decide⟩,
    (get_starting_point_spec cfgEx wsEx wsBadEx (by decide) (by decide)).2.2.2.2.2⟩

/-- Naturality of the single generic objective formulation: any ring
homomorphism commutes with it, so every numeric instantiation computes the
same mathematical function. -/
theorem eval_obj_natural {T S : Type} [CommRing T] [CommRing S] (ψ : T →+* S)
    (c : ℚ →+* T) (cfg : DAConfig) (dat : BoundaryData) (x : ℕ → T) :
    ψ (eval_obj T c cfg dat x) =
      eval_obj S (ψ.comp c) cfg dat fun i => ψ (x i) := by
  simp [eval_obj, map_sum, map_add, map_mul, map_sub, map_pow, map_one]

/-- Naturality of the propagation step under a ring homomorphism commuting
with the trigonometric bundles. -/
theorem propagate_natural {T S : Type} [CommRing T] [CommRing S] (ψ : T →+* S)
    (trT : TrigOps T) (trS : TrigOps S)
    (hsin : ∀ a, ψ (trT.sin a) = trS.sin (ψ a))
    (hcos : ∀ a, ψ (trT.cos a) = trS.cos (ψ a))
    (htan : ∀ a, ψ (trT.tan a) = trS.tan (ψ a))
    (invwb : T) (s u : ℕ → T) (h : T) (i : ℕ) :
    ψ (propagate T trT invwb s u h i) =
      propagate S trS (ψ invwb) (fun j => ψ (s j)) (fun j => ψ (u j)) (ψ h)
        i := by
  unfold propagate
  split_ifs <;> simp [map_add, map_mul, hsin, hcos, htan]

/-- Naturality of the transposed-half-plane times lambda product. -/
theorem atl_natural {T S : Type} [CommRing T] [CommRing S] (ψ : T →+* S)
    (c : ℚ →+* T) (cfg : DAConfig) (x : ℕ → T) (k o col : ℕ) :
    ψ (atl T c cfg x k o col) =
      atl S (ψ.comp c) cfg (fun i => ψ (x i)) k o col := by
  unfold atl
  simp [map_sum, map_mul]

/-- Naturality of the kinematic residual. -/
theorem kinematic_residual_natural {T S : Type} [CommRing T] [CommRing S]
    (ψ : T →+* S) (c : ℚ →+* T) (trT : TrigOps T) (trS : TrigOps S)
    (hsin : ∀ a, ψ (trT.sin a) = trS.sin (ψ a))
    (hcos : ∀ a, ψ (trT.cos a) = trS.cos (ψ a))
    (htan : ∀ a, ψ (trT.tan a) = trS.tan (ψ a))
    (cfg : DAConfig) (x : ℕ → T) (k i : ℕ) :
    ψ (kinematic_residual T c trT cfg x k i) =
      kinematic_residual S (ψ.comp c) trS cfg (fun idx => ψ (x idx)) k i := by
  unfold kinematic_residual
  rw [map_sub, propagate_natural ψ trT trS hsin hcos htan]
  simp [map_mul]

/-- Naturality of the dual-feasibility rows. -/
theorem dual_residual_natural {T S : Type} [CommRing T] [CommRing S]
    (ψ : T →+* S) (c : ℚ →+* T) (trT : TrigOps T) (trS : TrigOps S)
    (hsin : ∀ a, ψ (trT.sin a) = trS.sin (ψ a))
    (hcos : ∀ a, ψ (trT.cos a) = trS.cos (ψ a))
    (cfg : DAConfig) (x : ℕ → T) (k o r : ℕ) :
    ψ (dual_residual T c trT cfg x k o r) =
      dual_residual S (ψ.comp c) trS cfg (fun idx => ψ (x idx)) k o r := by
  unfold dual_residual
  split_ifs <;>
    simp [map_sum, map_add, map_sub, map_mul, map_pow, hsin, hcos,
      atl_natural ψ c]

/-- Naturality of the single generic constraint formulation: any ring
homomorphism commuting with the trigonometric bundles commutes with it, so
every numeric instantiation computes the same mathematical function. -/
theorem eval_constraints_natural {T S : Type} [CommRing T] [CommRing S]
    (ψ : T →+* S) (c : ℚ →+* T) (trT : TrigOps T) (trS : TrigOps S)
    (hsin : ∀ a, ψ (trT.sin a) = trS.sin (ψ a))
    (hcos : ∀ a, ψ (trT.cos a) = trS.cos (ψ a))
    (htan : ∀ a, ψ (trT.tan a) = trS.tan (ψ a))
    (cfg : DAConfig) (x : ℕ → T) (row : ℕ) :
    ψ (eval_constraints T c trT cfg x row) =
      eval_constraints S (ψ.comp c) trS cfg (fun i => ψ (x i)) row := by
  unfold eval_constraints
  split_ifs
  · exact kinematic_residual_natural ψ c trT trS hsin hcos htan cfg x _ _
  · exact dual_residual_natural ψ c trT trS hsin hcos cfg x _ _ _

/-- Replaying the recorded objective computation (the polynomial tape) at a
point gives the plain-number instantiation. -/
theorem eval_f_replay (cfg : DAConfig) (dat : BoundaryData) (y : ℕ → ℚ) :
    eval_f_value cfg dat y =
      MvPolynomial.eval y
        (eval_obj (MvPolynomial ℕ ℚ) MvPolynomial.C cfg dat MvPolynomial.X) := by
  have h := eval_obj_natural (MvPolynomial.eval y) MvPolynomial.C cfg dat
    MvPolynomial.X
  rw [h]
  have hc : (MvPolynomial.eval y).comp MvPolynomial.C = RingHom.id ℚ := by
    ext a
    simp
  have hx : (fun i => MvPolynomial.eval y (MvPolynomial.X i)) = y := by
    funext i
    simp
  rw [hc, hx]
  rfl

/-- The dual-number gradient component equals the derivative sweep of the
recorded objective computation. -/
theorem eval_grad_f_replay (cfg : DAConfig) (dat : BoundaryData) (x : ℕ → ℚ)
    (j : ℕ) :
    eval_grad_f_value cfg dat x j =
      (MvPolynomial.eval₂Hom (TrivSqZeroExt.inlHom ℚ ℚ) (dualArg x j)
        (eval_obj (MvPolynomial ℕ ℚ) MvPolynomial.C cfg dat
          MvPolynomial.X)).snd := by
  have h := eval_obj_natural
    (MvPolynomial.eval₂Hom (TrivSqZeroExt.inlHom ℚ ℚ) (dualArg x j))
    MvPolynomial.C cfg dat MvPolynomial.X
  rw [h]
  have hc : (MvPolynomial.eval₂Hom (TrivSqZeroExt.inlHom ℚ ℚ)
      (dualArg x j)).comp MvPolynomial.C = TrivSqZeroExt.inlHom ℚ ℚ :=
    RingHom.ext fun a => by
      rw [RingHom.comp_apply, MvPolynomial.eval₂Hom_C]
  have hx : (fun i => MvPolynomial.eval₂Hom (TrivSqZeroExt.inlHom ℚ ℚ)
      (dualArg x j) (MvPolynomial.X i)) = dualArg x j := by
    funext i
    simp
  rw [hc, hx]
  rfl

/-- Correctness of the forward derivative sweep against the recorded
computation: on every polynomial tape, the value component of the dual-number
replay is the plain value, and the derivative component is the exact
derivative, witnessed by a first-order expansion with an explicit quadratic
remainder. -/
theorem dual_eval_fst_snd (x : ℕ → ℚ) (j : ℕ) (p : MvPolynomial ℕ ℚ) :
    (MvPolynomial.eval₂Hom (TrivSqZeroExt.inlHom ℚ ℚ) (dualArg x j) p).fst =
      MvPolynomial.eval x p ∧
    ∃ r : ℚ → ℚ, ∀ t : ℚ,
      MvPolynomial.eval (Function.update x j (x j + t)) p =
        MvPolynomial.eval x p +
          (MvPolynomial.eval₂Hom (TrivSqZeroExt.inlHom ℚ ℚ) (dualArg x j)
            p).snd * t + r t * t ^ 2 := by
  have hinl : ∀ a : ℚ, (TrivSqZeroExt.inlHom ℚ ℚ) a =
      (TrivSqZeroExt.inl a : DualNumber ℚ) := fun a => rfl
  induction p using MvPolynomial.induction_on with
  | h_C a =>
      refine ⟨?_, ⟨fun _ => 0, fun t => ?_⟩⟩
      · simp [MvPolynomial.eval₂Hom_C, hinl]
      · simp
  | h_add p q hp hq =>
      obtain ⟨hp1, rp, hp2⟩ := hp
      obtain ⟨hq1, rq, hq2⟩ := hq
      refine ⟨?_, ⟨fun t => rp t + rq t, fun t => ?_⟩⟩
      · rw [map_add, TrivSqZeroExt.fst_add, hp1, hq1, map_add]
      · rw [map_add, map_add, map_add, TrivSqZeroExt.snd_add, hp2 t, hq2 t]
        ring
  | h_X p n ih =>
      obtain ⟨h1, rp, h2⟩ := ih
      have hXf : (MvPolynomial.eval₂Hom (TrivSqZeroExt.inlHom ℚ ℚ)
          (dualArg x j) (MvPolynomial.X n)).fst = x n := by
        rw [MvPolynomial.eval₂Hom_X']
        unfold dualArg
        rw [TrivSqZeroExt.fst_add, TrivSqZeroExt.fst_inl,
          TrivSqZeroExt.fst_inr, add_zero]
      have hXs : (MvPolynomial.eval₂Hom (TrivSqZeroExt.inlHom ℚ ℚ)
          (dualArg x j) (MvPolynomial.X n)).snd =
          if n = j then 1 else 0 := by
        rw [MvPolynomial.eval₂Hom_X']
        unfold dualArg
        rw [TrivSqZeroExt.snd_add, TrivSqZeroExt.snd_inl,
          TrivSqZeroExt.snd_inr, zero_add]
      constructor
      · rw [map_mul, TrivSqZeroExt.fst_mul, h1, hXf, map_mul,
          MvPolynomial.eval_X]
      · by_cases hnj : n = j
        · subst hnj
          refine ⟨fun t => (MvPolynomial.eval₂Hom (TrivSqZeroExt.inlHom ℚ ℚ)
              (dualArg x n) p).snd + rp t * x n + rp t * t, fun t => ?_⟩
          rw [map_mul, map_mul, map_mul, MvPolynomial.eval_X,
            MvPolynomial.eval_X, Function.update_same,
            TrivSqZeroExt.snd_mul, h1, hXf, hXs, h2 t]
          simp only [if_pos rfl, eq_self_iff_true, if_true, mul_one,
            smul_eq_mul, op_smul_eq_mul]
          ring
        · refine ⟨fun t => rp t * x n, fun t => ?_⟩
          rw [map_mul, map_mul, map_mul, MvPolynomial.eval_X,
            MvPolynomial.eval_X, Function.update_noteq hnj,
            TrivSqZeroExt.snd_mul, h1, hXf, hXs, h2 t]
          simp only [if_neg hnj, smul_eq_mul, op_smul_eq_mul]
          ring

/-- C2: the objective and constraint formulations are written once, generic
over the numeric type, so any homomorphic change of numeric representation
(plain numbers versus the tape-recording type) computes the same mathematical
function of the inputs; consequently the plain objective equals the replay of
its recorded tape, and the dual-number gradient component is the exact
derivative of the function computed by the plain objective, witnessed by a
first-order expansion with quadratic remainder. -/
theorem generic_formulation_consistency {T S : Type} [CommRing T] [CommRing S]
    (ψ : T →+* S) (c : ℚ →+* T) (trT : TrigOps T) (trS : TrigOps S)
    (hsin : ∀ a, ψ (trT.sin a) = trS.sin (ψ a))
    (hcos : ∀ a, ψ (trT.cos a) = trS.cos (ψ a))
    (htan : ∀ a, ψ (trT.tan a) = trS.tan (ψ a))
    (cfg : DAConfig) (dat : BoundaryData) (x : ℕ → T) (row : ℕ)
    (xq : ℕ → ℚ) (j : ℕ) :
    (ψ (eval_obj T c cfg dat x) =
      eval_obj S (ψ.comp c) cfg dat fun i => ψ (x i)) ∧
    (ψ (eval_constraints T c trT cfg x row) =
      eval_constraints S (ψ.comp c) trS cfg (fun i => ψ (x i)) row) ∧
    (eval_f_value cfg dat xq =
      MvPolynomial.eval xq
        (eval_obj (MvPolynomial ℕ ℚ) MvPolynomial.C cfg dat
          MvPolynomial.X)) ∧
    (∃ r : ℚ → ℚ, ∀ t : ℚ,
      eval_f_value cfg dat (Function.update xq j (xq j + t)) =
        eval_f_value cfg dat xq + eval_grad_f_value cfg dat xq j * t +
          r t * t ^ 2) := by
  refine ⟨eval_obj_natural ψ c cfg dat x,
    eval_constraints_natural ψ c trT trS hsin hcos htan cfg x row,
    eval_f_replay cfg dat xq, ?_⟩
  obtain ⟨-, r, hr⟩ := dual_eval_fst_snd xq j
    (eval_obj (MvPolynomial ℕ ℚ) MvPolynomial.C cfg dat MvPolynomial.X)
  refine ⟨r, fun t => ?_⟩
  rw [eval_f_replay cfg dat (Function.update xq j (xq j + t)),
    eval_f_replay cfg dat xq, eval_grad_f_replay cfg dat xq j]
  exact hr t

/-- Witness for C2: the identity representation change at the concrete
scenario, with the commuting hypotheses discharged definitionally. -/
theorem generic_formulation_consistency_witness :
    (∀ a, (RingHom.id ℚ) (trEx.sin a) = trEx.sin ((RingHom.id ℚ) a)) ∧
    (∀ a, (RingHom.id ℚ) (trEx.cos a) = trEx.cos ((RingHom.id ℚ) a)) ∧
    (∀ a, (RingHom.id ℚ) (trEx.tan a) = trEx.tan ((RingHom.id ℚ) a)) ∧
    (∃ r : ℚ → ℚ, ∀ t : ℚ,
      eval_f_value cfgEx datEx
          (Function.update (fun _ => (0 : ℚ)) 0 ((fun _ => (0 : ℚ)) 0 + t)) =
        eval_f_value cfgEx datEx (fun _ => (0 : ℚ)) +
          eval_grad_f_value cfgEx datEx (fun _ => (0 : ℚ)) 0 * t +
          r t * t ^ 2) :=
  ⟨fun _ => rfl, fun _ => rfl, fun _ => rfl,
    (generic_formulation_consistency (RingHom.id ℚ) (RingHom.id ℚ) trEx trEx
      (fun _ => rfl) (fun _ => rfl) (fun _ => rfl) cfgEx datEx
      (fun _ => (0 : ℚ)) 0 (fun _ => (0 : ℚ)) 0).2.2.2⟩

/-- C8: in the concrete scenario (horizon 2, one obstacle with 4 edges, zero
initial velocity, zero steering and acceleration warm start, start state
equal to end state) the starting point is accepted and every
kinematic-consistency residual of the constraint evaluator is exactly zero at
it, whatever the trigonometric primitives evaluate to. -/
theorem stationary_scenario_zero_kinematic_residual (tr : TrigOps ℚ)
    (row : ℕ) (hrow : row < 4 * cfgEx.horizon_) :
    get_starting_point cfgEx wsEx = some (warm_start_vector cfgEx wsEx) ∧
    eval_constraints ℚ (RingHom.id ℚ) tr cfgEx (warm_start_vector cfgEx wsEx)
      row = 0 := by
  constructor
  · unfold get_starting_point
    rw [if_pos (by decide)]
  · have h8 : row < 8 := by
      have : cfgEx.horizon_ = 2 := rfl
      omega
    interval_cases row <;>
      norm_num [eval_constraints, kinematic_residual, propagate,
        warm_start_vector, stateIdx, controlIdx, timeIdx,
        control_start_index_, state_start_index_, state_block_size,
        control_block_size, time_start_index_, time_block_size,
        l_start_index_, cfgEx, wsEx, startState]

/-- Witness for C8 at kinematic row 0 with the placeholder trigonometric
bundle. -/
theorem stationary_scenario_zero_kinematic_residual_witness :
    (0 < 4 * cfgEx.horizon_) ∧
    eval_constraints ℚ (RingHom.id ℚ) trEx cfgEx
      (warm_start_vector cfgEx wsEx) 0 = 0 :=
  ⟨by decide,
    (stationary_scenario_zero_kinematic_residual trEx 0 (by decide)).2⟩

end DistanceApproach
